import Mathlib

/-
Verification of the redis-rust server core against its specification.

The development shallowly embeds the relevant parts of the source:

* `src/resp.rs`   — the wire codec (`RespType`, `serialize`, `parse_message`,
  `parse_element`, `parse_bulk_string`);
* `src/command.rs` — the command interpreter (`Command::from_resp`);
* `src/main.rs`   — the per-connection session step (`handle_client`), the
  replication fan-out (`ReplicationManager::propagate_command`) and the
  post-loop replica registration;
* `src/database.rs` — `Item` and the storage map;
* `src/rdb.rs`    — the snapshot-record loader (`parse_hash_table`,
  `is_expired`).

Rust `String`s are modelled as `List Char` (one element per Unicode scalar
value, exactly the elements Rust's `chars()` yields); byte lengths are
recovered through `Char.utf8Size`.  Byte buffers are `List Nat` with each
element a byte value.  Panics (`panic!`, `expect`, `unwrap`,
`unimplemented!`) are modelled with `Option`: `none` is a panic of the
surrounding computation.  Monotonic instants and millisecond durations are
`Nat`.
-/

namespace Redis

/-- The characters of a Lean string literal, used to transcribe Rust string
literals into the `List Char` model. -/
def chars (s : String) : List Char := s.data

/-- UTF-8 byte length of a character sequence — Rust's `str::len` /
`String::len`, as opposed to `chars().count()` which is `List.length`. -/
def utf8Len (s : List Char) : Nat := (s.map Char.utf8Size).sum

/-- ASCII byte values of a character sequence (used for text that is written
to a byte stream; all protocol text in the program is ASCII). -/
def asciiBytes (s : List Char) : List Nat := s.map Char.toNat

/-- `RespType` from `src/resp.rs` lines 6-12. -/
inductive RespType where
  | SimpleString (s : List Char)
  | BulkString (s : List Char)
  | NullBulkString
  | Array (elems : List RespType)

mutual

/-- Boolean equality on frames (structural). -/
def RespType.beq : RespType → RespType → Bool
  | RespType.SimpleString a, RespType.SimpleString b => a == b
  | RespType.BulkString a, RespType.BulkString b => a == b
  | RespType.NullBulkString, RespType.NullBulkString => true
  | RespType.Array xs, RespType.Array ys => RespType.beqList xs ys
  | _, _ => false

/-- Boolean equality on frame lists. -/
def RespType.beqList : List RespType → List RespType → Bool
  | [], [] => true
  | x :: xs, y :: ys => RespType.beq x y && RespType.beqList xs ys
  | _, _ => false

end

mutual

theorem RespType.beq_iff : ∀ a b : RespType, (RespType.beq a b = true) ↔ a = b
  | RespType.SimpleString a, RespType.SimpleString b => by simp [RespType.beq]
  | RespType.BulkString a, RespType.BulkString b => by simp [RespType.beq]
  | RespType.NullBulkString, RespType.NullBulkString => by simp [RespType.beq]
  | RespType.Array xs, RespType.Array ys => by
      simp [RespType.beq, RespType.beqList_iff xs ys]
  | RespType.SimpleString _, RespType.BulkString _ => by simp [RespType.beq]
  | RespType.SimpleString _, RespType.NullBulkString => by simp [RespType.beq]
  | RespType.SimpleString _, RespType.Array _ => by simp [RespType.beq]
  | RespType.BulkString _, RespType.SimpleString _ => by simp [RespType.beq]
  | RespType.BulkString _, RespType.NullBulkString => by simp [RespType.beq]
  | RespType.BulkString _, RespType.Array _ => by simp [RespType.beq]
  | RespType.NullBulkString, RespType.SimpleString _ => by simp [RespType.beq]
  | RespType.NullBulkString, RespType.BulkString _ => by simp [RespType.beq]
  | RespType.NullBulkString, RespType.Array _ => by simp [RespType.beq]
  | RespType.Array _, RespType.SimpleString _ => by simp [RespType.beq]
  | RespType.Array _, RespType.BulkString _ => by simp [RespType.beq]
  | RespType.Array _, RespType.NullBulkString => by simp [RespType.beq]

theorem RespType.beqList_iff : ∀ xs ys : List RespType,
    (RespType.beqList xs ys = true) ↔ xs = ys
  | [], [] => by simp [RespType.beqList]
  | x :: xs, y :: ys => by
      simp [RespType.beqList, RespType.beq_iff x y, RespType.beqList_iff xs ys]
  | [], _ :: _ => by simp [RespType.beqList]
  | _ :: _, [] => by simp [RespType.beqList]

end

instance : DecidableEq RespType := fun a b =>
  decidable_of_iff _ (RespType.beq_iff a b)

/-- Little-endian base-10 digit list; `fuel ≥ n` always suffices. -/
def decimalDigitsAux : Nat → Nat → List Nat
  | _, 0 => []
  | 0, _ + 1 => []
  | fuel + 1, n + 1 => (n + 1) % 10 :: decimalDigitsAux fuel ((n + 1) / 10)

/-- Decimal rendering of a nonnegative integer, as Rust's `format!("{}", n)`
produces it: most significant digit first, `"0"` for zero. -/
def decimalRepr (n : Nat) : List Char :=
  if n = 0 then ['0'] else (decimalDigitsAux n n).reverse.map Nat.digitChar

/-- `RespType::serialize` from `src/resp.rs` lines 34-41.  The wildcard arm
panics with "Unsupported data type"; the only variant it covers is `Array`,
so serializing an `Array` is modelled as `none`.  The `BulkString` length
prefix is `s.chars().count()`, i.e. `List.length` in this model, not the
UTF-8 byte length. -/
def RespType.serialize : RespType → Option (List Char)
  | RespType.SimpleString s => some ('+' :: (s ++ ['\r', '\n']))
  | RespType.BulkString s =>
      some ('$' :: (decimalRepr s.length ++ '\r' :: '\n' :: (s ++ ['\r', '\n'])))
  | RespType.NullBulkString => some ('$' :: '-' :: '1' :: ['\r', '\n'])
  | RespType.Array _ => none

/-- The digit-run part of Rust's unsigned `str::parse`: a nonempty run of
ASCII digits denoting a value below `bound` (the overflow check). -/
def parseDigitsBounded (ds : List Char) (bound : Nat) : Option Nat :=
  if !ds.isEmpty && ds.all Char.isDigit then
    if ds.foldl (fun acc c => acc * 10 + (c.toNat - 48)) 0 < bound then
      some (ds.foldl (fun acc c => acc * 10 + (c.toNat - 48)) 0)
    else none
  else none

/-- Rust's `str::parse` for unsigned integer types (`u32`, `u64`, `usize`):
an optional leading `'+'`, then a nonempty run of ASCII digits, rejecting
values at or above `bound` (`2 ^ 32` for `u32`, `2 ^ 64` for
`u64`/`usize`). -/
def parseNatBounded (s : List Char) (bound : Nat) : Option Nat :=
  parseDigitsBounded (if s.head? = some '+' then s.drop 1 else s) bound

/-- Prepend a character to the first segment of a split. -/
def consHead (c : Char) : List (List Char) → List (List Char)
  | [] => [[c]]
  | l :: ls => (c :: l) :: ls

/-- Split a character sequence at every `'\n'`; `k` newlines yield `k + 1`
segments. -/
def splitOnNl : List Char → List (List Char)
  | [] => [[]]
  | c :: cs =>
    if c = '\n' then [] :: splitOnNl cs
    else consHead c (splitOnNl cs)

/-- Remove one trailing `'\r'` if present. -/
def stripCr (l : List Char) : List Char :=
  if l.getLast? = some '\r' then l.dropLast else l

/-- Rust's `str::lines`, used by `parse_message` (`src/resp.rs` line 45):
split at `'\n'`, drop a final empty segment (i.e. a trailing line
terminator yields no extra line), and strip one `'\r'` from the end of each
line. -/
def rustLines (s : List Char) : List (List Char) :=
  (if (splitOnNl s).getLast? = some [] then (splitOnNl s).dropLast
   else splitOnNl s).map stripCr

/-- `Command` from `src/command.rs` lines 15-31. -/
inductive Command where
  | Ping
  | Echo (msg : List Char)
  | Set (key value : List Char) (ttl : Option Nat)
  | Get (key : List Char)
  | ConfigGet (key : List Char)
  | Keys (pat : List Char)
  | Info
  | Unknown
  | ReplConf (arg : List Char)
  | PSync
deriving DecidableEq

/-- Lowercasing of a command word — Rust's `String::to_lowercase`.  All
command words compared against are ASCII, where `Char.toLower` agrees with
the Rust function character by character. -/
def lowerStr (s : List Char) : List Char := s.map Char.toLower

/-- `Command::from_resp` from `src/command.rs` lines 34-152, the command
interpreter.  Note that the `"set"` arm performs no arity or shape checks:
a missing or non-BulkString key or value defaults to the empty string
(`unwrap_or_default`), the 4th element is never inspected, and the 5th is
parsed as `u64` with failures collapsing to `ttl = None`. -/
def Command.from_resp (resp : List RespType) : Command :=
  match resp.head? with
  | some (RespType.Array inner) =>
    if inner.isEmpty then Command.Unknown
    else
      match inner.head? with
      | some (RespType.BulkString cmd) =>
        let lc := lowerStr cmd
        if lc = chars "ping" then Command.Ping
        else if lc = chars "echo" then
          match inner.get? 1 with
          | some (RespType.BulkString a) => Command.Echo a
          | _ => Command.Unknown
        else if lc = chars "set" then
          let key := match inner.get? 1 with
            | some (RespType.BulkString s) => s
            | _ => []
          let value := match inner.get? 2 with
            | some (RespType.BulkString s) => s
            | _ => []
          let ttl := match inner.get? 4 with
            | some (RespType.BulkString s) => parseNatBounded s (2 ^ 64)
            | _ => none
          Command.Set key value ttl
        else if lc = chars "get" then
          match inner.get? 1 with
          | some (RespType.BulkString k) => Command.Get k
          | _ => Command.Unknown
        else if lc = chars "config" then
          match inner.get? 1 with
          | some (RespType.BulkString sub) =>
            if lowerStr sub = chars "get" then
              match inner.get? 2 with
              | some (RespType.BulkString k) => Command.ConfigGet k
              | _ => Command.Unknown
            else Command.Unknown
          | _ => Command.Unknown
        else if lc = chars "keys" then
          match inner.get? 0 with
          | some (RespType.BulkString kv) => Command.Keys kv
          | _ => Command.Unknown
        else if lc = chars "info" then Command.Info
        else if lc = chars "replconf" then
          match inner.get? 1 with
          | some (RespType.BulkString sub) =>
            if lowerStr sub = chars "listening-port" then
              match inner.get? 2 with
              | some (RespType.BulkString p) =>
                  Command.ReplConf (chars "listening-port " ++ p)
              | _ => Command.Unknown
            else if lowerStr sub = chars "capa" then
              match inner.get? 2 with
              | some (RespType.BulkString cap) =>
                if lowerStr cap = chars "psync2" then
                  Command.ReplConf (chars "capa psync2")
                else Command.Unknown
              | _ => Command.Unknown
            else Command.Unknown
          | _ => Command.Unknown
        else if lc = chars "psync" then Command.PSync
        else Command.Unknown
      | _ => Command.Unknown
  | _ => Command.Unknown

/-- `parse_bulk_string` from `src/resp.rs` lines 106-115: read the next
line; if its byte length (`data.len()`) equals the declared length, yield
it, otherwise panic ("String length different than parsed length").  An
exhausted iterator yields no string without panicking. -/
def parseBulkData : List (List Char) → Nat → Option (Option (List Char) × List (List Char))
  | [], _ => some (none, [])
  | data :: rest, len =>
      if utf8Len data = len then some (some data, rest) else none

/-- The `for _ in 0..count` collection loop inside `parse_element` (and
`parse_message`): run the element parser `pe` `count` times, keeping the
elements that parsed. -/
def parseElemsGo
    (pe : List (List Char) → Option (Option RespType × List (List Char))) :
    Nat → List (List Char) → Option (List RespType × List (List Char))
  | 0, ls => some ([], ls)
  | n + 1, ls =>
    match pe ls with
    | none => none
    | some (elem, ls') =>
      match parseElemsGo pe n ls' with
      | none => none
      | some (es, ls'') =>
        some ((match elem with | some e => e :: es | none => es), ls'')

/-- `parse_element` from `src/resp.rs` lines 76-104.  `fuel` bounds the
nesting depth of the recursion; the callers supply more fuel than there are
lines, which always suffices because every recursive descent first consumes
a line. -/
def parseElement : Nat → List (List Char) → Option (Option RespType × List (List Char))
  | _, [] => some (none, [])
  | 0, _ :: _ => none
  | fuel + 1, line :: rest =>
    if line.head? = some '$' then
      match parseNatBounded (line.filter (fun c => c ≠ '$')) (2 ^ 32) with
      | none => none
      | some len =>
        match parseBulkData rest len with
        | none => none
        | some (some s, rest') => some (some (RespType.BulkString s), rest')
        | some (none, rest') => some (none, rest')
    else if line.head? = some '*' then
      match parseNatBounded (line.drop 1) (2 ^ 64) with
      | none => some (none, rest)
      | some count =>
        match parseElemsGo (parseElement fuel) count rest with
        | none => none
        | some (elems, rest') => some (some (RespType.Array elems), rest')
    else
      some (some (RespType.SimpleString line), rest)

/-- The collection loop at `parseElement`'s fuel level. -/
def parseElemsN (fuel n : Nat) (ls : List (List Char)) :
    Option (List RespType × List (List Char)) :=
  parseElemsGo (parseElement fuel) n ls

/-- The main loop of `parse_message` from `src/resp.rs` lines 44-74,
accumulating the `resp` vector of top-level frames.  As in `parseElement`,
`fuel` bounds the number of iterations; each iteration consumes at least
one line. -/
def parseLoop : Nat → List (List Char) → Option (List RespType)
  | _, [] => some []
  | 0, _ :: _ => none
  | fuel + 1, line :: rest =>
    if line.head? = some '*' then
      match parseNatBounded (line.drop 1) (2 ^ 64) with
      | none => parseLoop fuel rest
      | some count =>
        match parseElemsN fuel count rest with
        | none => none
        | some (elems, rest') =>
          match parseLoop fuel rest' with
          | none => none
          | some frames => some (RespType.Array elems :: frames)
    else if line.head? = some '$' then
      match parseNatBounded (line.filter (fun c => c ≠ '$')) (2 ^ 32) with
      | none => none
      | some len =>
        match parseBulkData rest len with
        | none => none
        | some (some s, rest') =>
          match parseLoop fuel rest' with
          | none => none
          | some frames => some (RespType.BulkString s :: frames)
        | some (none, rest') => parseLoop fuel rest'
    else
      match parseLoop fuel rest with
      | none => none
      | some frames => some (RespType.SimpleString line :: frames)

/-- The frame sequence `parse_message` extracts from a buffer: its `resp`
vector.  `none` is a panic during parsing. -/
def parseFrames (buffer : List Char) : Option (List RespType) :=
  parseLoop ((rustLines buffer).length + 1) (rustLines buffer)

/-- `parse_message` from `src/resp.rs` lines 44-74: parse the frames of the
buffer and hand the whole vector to `Command::from_resp` (which looks only
at its first element). -/
def parseMessage (buffer : List Char) : Option Command :=
  (parseFrames buffer).map Command.from_resp

/-- `Item` from `src/database.rs` lines 9-24: a stored value with an
optional time-to-live (`expires`, milliseconds) and the monotonic instant
of its creation. -/
structure Item where
  value : List Char
  expires : Option Nat
  created : Nat
deriving DecidableEq

/-- `Item::is_expired` from `src/database.rs` lines 25-31: expired iff a
duration is present and `created.elapsed() >= duration`, with
`elapsed = now - created` on the monotonic clock. -/
def Item.isExpired (it : Item) (now : Nat) : Bool :=
  match it.expires with
  | some d => decide (now - it.created ≥ d)
  | none => false

/-- The storage `HashMap<String, Item>` (`src/database.rs` line 36),
modelled as an association list with the most recent binding first and at
most one binding per key. -/
abbrev Store := List (List Char × Item)

/-- `HashMap::get`. -/
def storeGet (st : Store) (k : List Char) : Option Item :=
  (st.find? (fun p => p.1 == k)).map Prod.snd

/-- `HashMap::insert`: replace any existing binding of the key. -/
def storeInsert (st : Store) (k : List Char) (it : Item) : Store :=
  (k, it) :: st.filter (fun p => !(p.1 == k))

/-- `Role` from `src/main.rs` lines 42-46. -/
inductive Role where
  | Slave
  | Master
deriving DecidableEq

/-- `Config` from `src/main.rs` lines 48-57 (the replication manager's
registry is threaded separately as an explicit list of outbound handles,
identified by `Nat` tags). -/
structure Config where
  dir : Option (List Char)
  dbfilename : Option (List Char)
  role : Role
  port : Nat
  repl_id : List Char
deriving DecidableEq

/-- `Config::new` from `src/main.rs` lines 59-77: the replication id is the
fixed 40-hex-character token. -/
def Config.new (dir dbfilename : Option (List Char)) (role : Role) (port : Nat) : Config :=
  { dir := dir, dbfilename := dbfilename, role := role, port := port,
    repl_id := chars "8371b4fb1155b71f4a04d3e1bc3e18c4a990aeeb" }

/-- The 88-byte hard-coded empty snapshot blob of the PSYNC branch
(`src/main.rs` line 243), i.e. `hex::decode("524544495330303131fa...5aa2")`. -/
def emptyRDB : List Nat :=
  [82, 69, 68, 73, 83, 48, 48, 49, 49, 250, 9, 114, 101, 100, 105, 115, 45,
   118, 101, 114, 5, 55, 46, 50, 46, 48, 250, 10, 114, 101, 100, 105, 115,
   45, 98, 105, 116, 115, 192, 64, 250, 5, 99, 116, 105, 109, 101, 194, 109,
   8, 188, 101, 250, 8, 117, 115, 101, 100, 45, 109, 101, 109, 194, 176,
   196, 16, 0, 250, 8, 97, 111, 102, 45, 98, 97, 115, 101, 192, 0, 255, 240,
   110, 59, 254, 192, 255, 90, 162]

/-- What one dispatch of the `match &command` in `handle_client`
(`src/main.rs` lines 141-259) does, observably: the store afterwards, the
reply chosen for write-back, the bytes written to each replica handle
during propagation, the bytes the PSYNC arm writes directly to the session
socket (its CRLF-terminated text, then the raw blob with nothing after
it), whether the arm leaves the session loop (`break`), and whether it
panics. -/
structure SessionOut where
  db : Store
  reply : Option (List Char)
  replicaWrites : List (Nat × List Char)
  psyncText : List Char
  psyncBlob : List Nat
  breaks : Bool
  panics : Bool
deriving DecidableEq

/-- The no-effect baseline of a dispatch. -/
def SessionOut.base (db : Store) : SessionOut :=
  { db := db, reply := none, replicaWrites := [], psyncText := [],
    psyncBlob := [], breaks := false, panics := false }

/-- One command dispatch of `handle_client` (`src/main.rs` lines 141-259).
`registry` is the replica registry (`ReplicationManager.replicas`), `now`
the current monotonic instant.  The `Set` arm on a master serializes
`Array[BulkString "SET", BulkString k, BulkString v]` through
`RespType::serialize` inside `ReplicationManager::propagate_command`
(`src/main.rs` lines 95-110) before replying; a `none` from `serialize`
is its panic.  The `ConfigGet` arm's final arm is `unimplemented!()`
(`src/main.rs` line 205). -/
def sessionStep (cfg : Config) (registry : List Nat) (db : Store) (now : Nat) :
    Command → SessionOut
  | Command.Ping =>
      { SessionOut.base db with
        reply := (RespType.SimpleString (chars "PONG")).serialize }
  | Command.Echo msg =>
      { SessionOut.base db with reply := (RespType.BulkString msg).serialize }
  | Command.Set k v ttl =>
    let db' := storeInsert db k { value := v, expires := ttl, created := now }
    if cfg.role = Role.Master then
      match (RespType.Array [RespType.BulkString (chars "SET"),
               RespType.BulkString k, RespType.BulkString v]).serialize with
      | none => { SessionOut.base db' with panics := true }
      | some bytes =>
        { SessionOut.base db' with
          replicaWrites := registry.map (fun hnd => (hnd, bytes)),
          reply := (RespType.SimpleString (chars "OK")).serialize }
    else
      { SessionOut.base db' with
        reply := (RespType.SimpleString (chars "OK")).serialize }
  | Command.Get k =>
    match storeGet db k with
    | some it =>
      if it.isExpired now then
        { SessionOut.base db with reply := RespType.NullBulkString.serialize }
      else
        { SessionOut.base db with
          reply := (RespType.SimpleString it.value).serialize }
    | none =>
      { SessionOut.base db with reply := RespType.NullBulkString.serialize }
  | Command.ConfigGet k =>
    if k = chars "dir" then
      match cfg.dir with
      | some dv =>
        match (RespType.Array [RespType.BulkString (chars "dir"),
                 RespType.BulkString dv]).serialize with
        | none => { SessionOut.base db with panics := true }
        | some s => { SessionOut.base db with reply := some s }
      | none =>
        { SessionOut.base db with reply := RespType.NullBulkString.serialize }
    else if k = chars "dbfilename" then
      match cfg.dbfilename with
      | some fv =>
        match (RespType.Array [RespType.BulkString (chars "dir"),
                 RespType.BulkString fv]).serialize with
        | none => { SessionOut.base db with panics := true }
        | some s => { SessionOut.base db with reply := some s }
      | none =>
        { SessionOut.base db with reply := RespType.NullBulkString.serialize }
    else
      { SessionOut.base db with panics := true }
  | Command.Keys _ =>
    match (RespType.Array (db.map (fun p => RespType.BulkString p.1))).serialize with
    | none => { SessionOut.base db with panics := true }
    | some s => { SessionOut.base db with reply := some s }
  | Command.Info =>
    let roleLine :=
      if cfg.role = Role.Master then chars "role:master\n" else chars "role:slave\n"
    { SessionOut.base db with
      reply := (RespType.BulkString (roleLine ++
        chars "master_replid:8371b4fb1155b71f4a04d3e1bc3e18c4a990aeeb\r\nmaster_repl_offset:0")).serialize }
  | Command.ReplConf _ =>
      { SessionOut.base db with
        reply := (RespType.SimpleString (chars "OK")).serialize }
  | Command.PSync =>
    match (RespType.SimpleString (chars "FULLRESYNC " ++ cfg.repl_id ++
             chars " 0")).serialize with
    | none => { SessionOut.base db with panics := true }
    | some fr =>
      { SessionOut.base db with
        psyncText := fr ++ ('$' :: decimalRepr emptyRDB.length) ++ ['\r', '\n'],
        psyncBlob := emptyRDB,
        breaks := true }
  | Command.Unknown =>
      { SessionOut.base db with
        reply := (RespType.SimpleString (chars "-ERR Unknown command")).serialize }

/-- What happens after the session loop exits (`src/main.rs` lines
275-277): if the last command was PSYNC, the stream is pushed onto the
replica registry (`ReplicationManager::add_replica`). -/
def afterLoop (registry : List Nat) (lastCmd : Command) (handle : Nat) : List Nat :=
  if lastCmd = Command.PSync then registry ++ [handle] else registry

/-- The replication-stream consumer a secondary runs after its handshake:
`handle_replica` (`src/replication.rs` lines 36-43) spawns `handle_client`
itself on the upstream connection, so one consumed command steps exactly
like a client command. -/
def replicaConsumerStep (cfg : Config) (registry : List Nat) (db : Store)
    (now : Nat) (cmd : Command) : SessionOut :=
  sessionStep cfg registry db now cmd

/-- Little-endian read of a byte list —
`Cursor::read_u64::<LittleEndian>` over its 8 bytes. -/
def readLE (bs : List Nat) : Nat := bs.foldr (fun b acc => b + 256 * acc) 0

/-- The 8-byte little-endian encoding of a 64-bit value, used to build
snapshot records in theorem statements. -/
def le8 (e : Nat) : List Nat :=
  [e % 256, e / 256 % 256, e / 256 / 256 % 256, e / 256 / 256 / 256 % 256,
   e / 256 / 256 / 256 / 256 % 256, e / 256 / 256 / 256 / 256 / 256 % 256,
   e / 256 / 256 / 256 / 256 / 256 / 256 % 256,
   e / 256 / 256 / 256 / 256 / 256 / 256 / 256 % 256]

/-- `is_expired` from `src/rdb.rs` lines 155-161: compares
`expiry_timestamp_ms < Some(current_timestamp_ms)` under Rust's `Option`
ordering, where `None` is below every `Some`. -/
def rdbIsExpired (expiry : Option Nat) (now : Nat) : Bool :=
  match expiry with
  | none => true
  | some e => decide (e < now)

/-- `String::from_utf8_lossy` restricted to the ASCII plane: each byte
below `0x80` is its own character.  The claims only exercise ASCII keys
and values, where this agrees with the Rust function byte for byte. -/
def lossyChars (bs : List Nat) : List Char := bs.map Char.ofNat

/-- The tail of one `parse_hash_table` record after its expiry marker
(`src/rdb.rs` lines 121-152): a length-prefixed key and a length-prefixed
value (their copy loops stop early on exhaustion, hence `take`);
`Item::new(value_string, None)` is built — note the `None` expiry — and
the record is dropped when `is_expired(expiry) && !expiry.is_none()`,
inserted otherwise.  `none` models the panicking `unwrap` of the two
length reads on an exhausted iterator. -/
def recTail (expiry : Option Nat) (rest1 : List Nat) (now : Nat) (db : Store) :
    Option (Store × List Nat) :=
  match rest1 with
  | [] => none
  | klen :: rest2 =>
    match rest2.drop klen with
    | [] => none
    | vlen :: rest4 =>
      if rdbIsExpired expiry now && expiry.isSome then
        some (db, rest4.drop vlen)
      else
        some (storeInsert db (lossyChars (rest2.take klen))
                { value := lossyChars (rest4.take vlen), expires := none,
                  created := now },
              rest4.drop vlen)

/-- One iteration of the record loop in `parse_hash_table`
(`src/rdb.rs` lines 105-152): read the leading byte; on `0xFC` read an
8-byte little-endian millisecond expiry and consume one further byte (the
`let _ = buffer_iterator.next()` skipping the value type), otherwise no
expiry; then the record tail.  `none` models a panicking `unwrap` on an
exhausted iterator or a failed `read_u64`. -/
def parseRecord (bytes : List Nat) (now : Nat) (db : Store) :
    Option (Store × List Nat) :=
  match bytes with
  | [] => none
  | vt :: rest0 =>
    if vt = 252 then
      if (rest0.take 8).length = 8 then
        recTail (some (readLE (rest0.take 8))) ((rest0.drop 8).drop 1) now db
      else none
    else recTail none rest0 now db

/-- The `for _ in 0..keys_size` loop of `parse_hash_table`
(`src/rdb.rs` lines 101-153). -/
def parseHashTable : Nat → List Nat → Nat → Store → Option Store
  | 0, _, _, db => some db
  | n + 1, bytes, now, db =>
    match parseRecord bytes now db with
    | none => none
    | some (db', rest) => parseHashTable n rest now db'

/-- CRLF-join of a list of lines, the shape of every serialized text frame. -/
def joinCrlf (ls : List (List Char)) : List Char :=
  ls.foldr (fun l acc => l ++ '\r' :: '\n' :: acc) []

/-! ### Decimal rendering and parsing -/

theorem decimalDigitsAux_eq_digits :
    ∀ fuel m : Nat, m ≤ fuel → decimalDigitsAux fuel m = Nat.digits 10 m := by
  intro fuel
  induction fuel with
  | zero =>
    intro m hm
    interval_cases m
    simp [decimalDigitsAux]
  | succ fuel ih =>
    intro m hm
    match m with
    | 0 => simp [decimalDigitsAux]
    | n + 1 =>
      rw [decimalDigitsAux, Nat.digits_def' (by norm_num : (1 : Nat) < 10)
            (Nat.succ_pos n)]
      have hdiv : (n + 1) / 10 ≤ fuel := by
        have h1 : (n + 1) / 10 < n + 1 := Nat.div_lt_self (Nat.succ_pos n) (by norm_num)
        omega
      rw [ih _ hdiv]

theorem decimalRepr_eq_digits (n : Nat) :
    decimalRepr n = if n = 0 then ['0']
      else (Nat.digits 10 n).reverse.map Nat.digitChar := by
  unfold decimalRepr
  rw [decimalDigitsAux_eq_digits n n (le_refl n)]

theorem digitChar_isDigit {d : Nat} (h : d < 10) :
    (Nat.digitChar d).isDigit = true := by
  interval_cases d <;> decide

theorem digitChar_toNat {d : Nat} (h : d < 10) :
    (Nat.digitChar d).toNat - 48 = d := by
  interval_cases d <;> decide

theorem decimalRepr_isDigit (n : Nat) : ∀ c ∈ decimalRepr n, c.isDigit = true := by
  intro c hc
  rw [decimalRepr_eq_digits] at hc
  split at hc
  · simp only [List.mem_singleton] at hc
    subst hc; decide
  · simp only [List.mem_map, List.mem_reverse] at hc
    obtain ⟨d, hd, rfl⟩ := hc
    exact digitChar_isDigit (Nat.digits_lt_base (by norm_num) hd)

theorem decimalRepr_ne_nil (n : Nat) : decimalRepr n ≠ [] := by
  rw [decimalRepr_eq_digits]
  split
  · simp
  · simp [Nat.digits_ne_nil_iff_ne_zero, *]

theorem isDigit_ne_plus {c : Char} (h : c.isDigit = true) : c ≠ '+' := by
  intro e; subst e; exact absurd h (by decide)

theorem isDigit_ne_dollar {c : Char} (h : c.isDigit = true) : c ≠ '$' := by
  intro e; subst e; exact absurd h (by decide)

theorem isDigit_ne_nl {c : Char} (h : c.isDigit = true) : c ≠ '\n' := by
  intro e; subst e; exact absurd h (by decide)

theorem foldrDigitChar (ds : List Nat) (h : ∀ d ∈ ds, d < 10) :
    ds.foldr (fun d acc => acc * 10 + ((Nat.digitChar d).toNat - 48)) 0
      = Nat.ofDigits 10 ds := by
  induction ds with
  | nil => simp [Nat.ofDigits]
  | cons d ds ih =>
    have h1 : d < 10 := h d (List.mem_cons_self d ds)
    have h2 := ih (fun x hx => h x (List.mem_cons_of_mem d hx))
    simp only [List.foldr_cons, Nat.ofDigits_cons, h2, digitChar_toNat h1]
    ring

theorem decimalRepr_foldl (n : Nat) :
    (decimalRepr n).foldl (fun acc c => acc * 10 + (c.toNat - 48)) 0 = n := by
  rw [decimalRepr_eq_digits]
  split
  · subst_vars; decide
  · rw [List.foldl_map, List.foldl_reverse]
    have h := foldrDigitChar (Nat.digits 10 n)
      (fun d hd => Nat.digits_lt_base (by norm_num) hd)
    exact h.trans (Nat.ofDigits_digits 10 n)

theorem parseDigitsBounded_decimalRepr {n bound : Nat} (h : n < bound) :
    parseDigitsBounded (decimalRepr n) bound = some n := by
  unfold parseDigitsBounded
  rw [if_pos, decimalRepr_foldl, if_pos h]
  have h1 : (decimalRepr n).isEmpty = false := by
    cases hd : decimalRepr n with
    | nil => exact absurd hd (decimalRepr_ne_nil n)
    | cons c cs => rfl
  have h2 : (decimalRepr n).all Char.isDigit = true :=
    List.all_eq_true.mpr (decimalRepr_isDigit n)
  simp [h1, h2]

theorem decimalRepr_head_ne_plus (n : Nat) :
    (decimalRepr n).head? ≠ some '+' := by
  cases hd : decimalRepr n with
  | nil => simp
  | cons c cs =>
    have hc : c.isDigit = true :=
      decimalRepr_isDigit n c (hd ▸ List.mem_cons_self c cs)
    simp [isDigit_ne_plus hc]

theorem parseNatBounded_decimalRepr {n bound : Nat} (h : n < bound) :
    parseNatBounded (decimalRepr n) bound = some n := by
  unfold parseNatBounded
  rw [if_neg (decimalRepr_head_ne_plus n)]
  exact parseDigitsBounded_decimalRepr h

theorem filter_dollar_decimalRepr (n : Nat) :
    ('$' :: decimalRepr n).filter (fun c => c ≠ '$') = decimalRepr n := by
  rw [List.filter_cons]
  simp only [decide_not]
  rw [if_neg (by simp)]
  exact List.filter_eq_self.mpr
    (fun c hc => by simp [isDigit_ne_dollar (decimalRepr_isDigit n c hc)])

/-! ### Rust `str::lines` -/

theorem splitOnNl_ne_nil (s : List Char) : splitOnNl s ≠ [] := by
  induction s with
  | nil => simp [splitOnNl]
  | cons c cs ih =>
    unfold splitOnNl
    split
    · simp
    · cases h : splitOnNl cs with
      | nil => simp [consHead]
      | cons l ls => simp [consHead]

theorem splitOnNl_append_cons (a rest : List Char) (h : '\n' ∉ a) :
    splitOnNl (a ++ '\n' :: rest) = a :: splitOnNl rest := by
  induction a with
  | nil => simp [splitOnNl]
  | cons c cs ih =>
    have hc : ¬c = '\n' := fun e => h (by simp [e])
    have hcs : '\n' ∉ cs := fun m => h (List.mem_cons_of_mem c m)
    show splitOnNl (c :: (cs ++ '\n' :: rest)) = (c :: cs) :: splitOnNl rest
    conv_lhs => rw [splitOnNl]
    rw [if_neg hc, ih hcs]
    simp [consHead]

theorem stripCr_concat (l : List Char) : stripCr (l ++ ['\r']) = l := by
  simp [stripCr, List.getLast?_concat, List.dropLast_concat]

theorem rustLines_joinCrlf (ls : List (List Char)) (h : ∀ l ∈ ls, '\n' ∉ l) :
    rustLines (joinCrlf ls) = ls := by
  have hsplit : splitOnNl (joinCrlf ls) = (ls.map (fun l => l ++ ['\r'])) ++ [[]] := by
    induction ls with
    | nil => simp [joinCrlf, splitOnNl]
    | cons l ls ih =>
      have h1 : '\n' ∉ l ++ ['\r'] := by
        intro m
        rcases List.mem_append.mp m with m1 | m1
        · exact h l (List.mem_cons_self l ls) m1
        · simp at m1
      have h2 := ih (fun x hx => h x (List.mem_cons_of_mem l hx))
      have : joinCrlf (l :: ls) = (l ++ ['\r']) ++ '\n' :: joinCrlf ls := by
        simp [joinCrlf]
      rw [this, splitOnNl_append_cons _ _ h1, h2]
      simp
  unfold rustLines
  rw [hsplit]
  rw [if_pos (List.getLast?_concat _)]
  rw [List.dropLast_concat]
  rw [List.map_map]
  have : stripCr ∘ (fun l => l ++ ['\r']) = id := by
    funext l; simp [Function.comp, stripCr_concat]
  rw [this, List.map_id]

/-! ### Store lemmas -/

theorem storeGet_insert_self (st : Store) (k : List Char) (it : Item) :
    storeGet (storeInsert st k it) k = some it := by
  simp [storeGet, storeInsert, List.find?_cons_of_pos]

theorem find?_filter_ne (st : Store) (k k' : List Char) (h : k' ≠ k) :
    (st.filter (fun p => !(p.1 == k'))).find? (fun p => p.1 == k)
      = st.find? (fun p => p.1 == k) := by
  induction st with
  | nil => simp
  | cons p ps ih =>
    rw [List.filter_cons]
    by_cases hp : p.1 = k'
    · rw [if_neg (by simp [hp]), ih]
      rw [List.find?_cons_of_neg _ (by simp [hp, h])]
    · rw [if_pos (by simp [hp])]
      by_cases hk : p.1 = k
      · rw [List.find?_cons_of_pos _ (by simp [hk]),
            List.find?_cons_of_pos _ (by simp [hk])]
      · rw [List.find?_cons_of_neg _ (by simp [hk]),
            List.find?_cons_of_neg _ (by simp [hk]), ih]

theorem storeGet_insert_ne (st : Store) (k k' : List Char) (it : Item)
    (h : k' ≠ k) : storeGet (storeInsert st k' it) k = storeGet st k := by
  unfold storeGet storeInsert
  rw [List.find?_cons_of_neg _ (by simp [h]), find?_filter_ne st k k' h]

/-! ### Evaluating the decoder on serialized text -/

theorem no_nl_dollar_decimalRepr (n : Nat) : '\n' ∉ '$' :: decimalRepr n := by
  intro m
  rcases List.mem_cons.mp m with e | m2
  · exact absurd e (by decide)
  · exact isDigit_ne_nl (decimalRepr_isDigit n '\n' m2) rfl

theorem parseNatBounded_dollar_line {n bound : Nat} (h : n < bound) :
    parseNatBounded (('$' :: decimalRepr n).filter (fun c => c ≠ '$')) bound
      = some n := by
  rw [filter_dollar_decimalRepr]
  exact parseNatBounded_decimalRepr h

theorem serialize_bulk_eq_joinCrlf (s : List Char) :
    (RespType.BulkString s).serialize
      = some (joinCrlf ['$' :: decimalRepr s.length, s]) := by
  simp [RespType.serialize, joinCrlf]

theorem parseLoop_bulk_cons (fuel : Nat) (s : List Char) (rest : List (List Char))
    (h2 : utf8Len s = s.length) (h3 : s.length < 2 ^ 32) :
    parseLoop (fuel + 1) (('$' :: decimalRepr s.length) :: s :: rest)
      = match parseLoop fuel rest with
        | none => none
        | some frames => some (RespType.BulkString s :: frames) := by
  have hpos : ('$' :: decimalRepr s.length).head? = some '$' := rfl
  rw [parseLoop]
  rw [if_neg (by simp), if_pos hpos]
  rw [parseNatBounded_dollar_line h3]
  show (match parseBulkData (s :: rest) s.length with
        | none => none
        | some (some s, rest') =>
          match parseLoop fuel rest' with
          | none => none
          | some frames => some (RespType.BulkString s :: frames)
        | some (none, rest') => parseLoop fuel rest') = _
  rw [parseBulkData, if_pos h2]

theorem parseElement_bulk (fuel : Nat) (s : List Char) (rest : List (List Char))
    (h2 : utf8Len s = s.length) (h3 : s.length < 2 ^ 32) :
    parseElement (fuel + 1) (('$' :: decimalRepr s.length) :: s :: rest)
      = some (some (RespType.BulkString s), rest) := by
  have hpos : ('$' :: decimalRepr s.length).head? = some '$' := rfl
  rw [parseElement]
  rw [if_pos hpos]
  rw [parseNatBounded_dollar_line h3]
  show (match parseBulkData (s :: rest) s.length with
        | none => none
        | some (some s, rest') => some (some (RespType.BulkString s), rest')
        | some (none, rest') => some (none, rest')) = _
  rw [parseBulkData, if_pos h2]

/-! ### C1 — codec round-trip -/

/-- C1, counterexample: the claim fails on the code as written.  Decoding
the serialization of `SimpleString "PONG"` does not give the frame back
(the parser keeps the `'+'` tag in the text), and the serializer's
BulkString length prefix is the character count, not the byte length: for
the one-character, two-byte content `"é"` it emits `$1`. -/
theorem C1_counterexample :
    (RespType.SimpleString (chars "PONG")).serialize.bind parseFrames
        ≠ some [RespType.SimpleString (chars "PONG")]
    ∧ (RespType.BulkString ['é']).serialize = some (chars "$1\r\né\r\n")
    ∧ utf8Len ['é'] = 2 ∧ (['é'] : List Char).length = 1
    ∧ RespType.NullBulkString.serialize.bind parseFrames = none
    ∧ (RespType.Array [RespType.BulkString (chars "PING")]).serialize = none := by
  exact ⟨by decide, by decide, by decide, by decide, by decide, by decide⟩

/-- C1 (amended): the round-trip `decode (serialize F) = [F]` holds exactly
on the BulkString fragment the code handles: content free of `'\n'` whose
UTF-8 byte length equals its character count (and small enough for the
`u32` length parse).  The serializer's length prefix is the character
count of the content. -/
theorem C1_bulkstring_roundtrip (s : List Char)
    (h1 : '\n' ∉ s) (h2 : utf8Len s = s.length) (h3 : s.length < 2 ^ 32) :
    (RespType.BulkString s).serialize.bind parseFrames
      = some [RespType.BulkString s]
    ∧ (RespType.BulkString s).serialize
      = some ('$' :: (decimalRepr s.length ++ '\r' :: '\n' :: (s ++ ['\r', '\n']))) := by
  refine ⟨?_, rfl⟩
  rw [serialize_bulk_eq_joinCrlf, Option.some_bind]
  have hlines : rustLines (joinCrlf ['$' :: decimalRepr s.length, s])
      = ['$' :: decimalRepr s.length, s] := by
    apply rustLines_joinCrlf
    intro l hl
    rcases List.mem_cons.mp hl with rfl | hl2
    · exact no_nl_dollar_decimalRepr s.length
    · rcases List.mem_cons.mp hl2 with rfl | hl3
      · exact h1
      · simp at hl3
  unfold parseFrames
  rw [hlines]
  show parseLoop (1 + 1 + 1) _ = _
  rw [parseLoop_bulk_cons _ _ _ h2 h3]
  rfl

/-- C1 witness: the amended round-trip at the concrete content `"myvalue"`. -/
theorem C1_bulkstring_roundtrip_witness :
    (RespType.BulkString (chars "myvalue")).serialize.bind parseFrames
      = some [RespType.BulkString (chars "myvalue")] :=
  (C1_bulkstring_roundtrip (chars "myvalue") (by decide) (by decide)
    (by decide)).1

/-! ### The command interpreter on malformed input -/

theorem from_resp_set_arity_3 (k v : List Char) :
    Command.from_resp [RespType.Array [RespType.BulkString (chars "SET"),
      RespType.BulkString k, RespType.BulkString v]] = Command.Set k v none := by
  simp only [Command.from_resp, List.head?_cons, List.isEmpty_cons, List.get?]
  rw [if_neg (by decide), if_neg (by decide), if_neg (by decide), if_pos (by decide)]

theorem from_resp_set_bad_ttl (k v junk : List Char)
    (h : parseNatBounded junk (2 ^ 64) = none) :
    Command.from_resp [RespType.Array [RespType.BulkString (chars "SET"),
      RespType.BulkString k, RespType.BulkString v,
      RespType.BulkString (chars "PX"), RespType.BulkString junk]]
      = Command.Set k v none := by
  simp only [Command.from_resp, List.head?_cons, List.isEmpty_cons, List.get?]
  rw [if_neg (by decide), if_neg (by decide), if_neg (by decide),
      if_pos (by decide), h]

theorem from_resp_unsupported (name : List Char) (args : List RespType)
    (h : lowerStr name ∉ [chars "ping", chars "echo", chars "set", chars "get",
         chars "config", chars "keys", chars "info", chars "replconf",
         chars "psync"]) :
    Command.from_resp [RespType.Array (RespType.BulkString name :: args)]
      = Command.Unknown := by
  have h1 : ¬lowerStr name = chars "ping" := fun e => h (by simp [e])
  have h2 : ¬lowerStr name = chars "echo" := fun e => h (by simp [e])
  have h3 : ¬lowerStr name = chars "set" := fun e => h (by simp [e])
  have h4 : ¬lowerStr name = chars "get" := fun e => h (by simp [e])
  have h5 : ¬lowerStr name = chars "config" := fun e => h (by simp [e])
  have h6 : ¬lowerStr name = chars "keys" := fun e => h (by simp [e])
  have h7 : ¬lowerStr name = chars "info" := fun e => h (by simp [e])
  have h8 : ¬lowerStr name = chars "replconf" := fun e => h (by simp [e])
  have h9 : ¬lowerStr name = chars "psync" := fun e => h (by simp [e])
  simp only [Command.from_resp, List.head?_cons, List.isEmpty_cons]
  rw [if_neg h1, if_neg h2, if_neg h3, if_neg h4, if_neg h5, if_neg h6,
      if_neg h7, if_neg h8, if_neg h9]
  simp

/-! ### C6 — error handling of unknown commands and malformed SET -/

/-- C6, counterexample: a SET whose TTL argument is the non-numeric `"abc"`
is interpreted as `Set k v None` — it is not downgraded to `Unknown` as the
claim requires (and a SET of arity 2 is likewise accepted, with the missing
value defaulting to the empty string). -/
theorem C6_counterexample :
    Command.from_resp [RespType.Array [RespType.BulkString (chars "SET"),
        RespType.BulkString (chars "k"), RespType.BulkString (chars "v"),
        RespType.BulkString (chars "PX"), RespType.BulkString (chars "abc")]]
      = Command.Set (chars "k") (chars "v") none
    ∧ Command.from_resp [RespType.Array [RespType.BulkString (chars "SET"),
        RespType.BulkString (chars "k"), RespType.BulkString (chars "v"),
        RespType.BulkString (chars "PX"), RespType.BulkString (chars "abc")]]
      ≠ Command.Unknown
    ∧ Command.from_resp [RespType.Array [RespType.BulkString (chars "SET"),
        RespType.BulkString (chars "k")]]
      = Command.Set (chars "k") [] none := by
  exact ⟨by decide, by decide, by decide⟩

/-- C6 (amended): an unsupported first element still yields `Unknown`, and
the session replies `-ERR Unknown command` (a SimpleString) without closing
the connection or panicking; but SET's shape is not validated — the 4th
token is never compared against `PX`, and a non-numeric or overflowing TTL
argument merely produces a `Set` with no TTL instead of `Unknown`
(likewise, missing key/value arguments default to empty strings rather
than yielding `Unknown`). -/
theorem C6_unknown_handling (name junk k v : List Char) (args : List RespType)
    (cfg : Config) (reg : List Nat) (db : Store) (now : Nat)
    (hname : lowerStr name ∉ [chars "ping", chars "echo", chars "set",
        chars "get", chars "config", chars "keys", chars "info",
        chars "replconf", chars "psync"])
    (hjunk : parseNatBounded junk (2 ^ 64) = none) :
    Command.from_resp [RespType.Array (RespType.BulkString name :: args)]
      = Command.Unknown
    ∧ (sessionStep cfg reg db now Command.Unknown).reply
      = (RespType.SimpleString (chars "-ERR Unknown command")).serialize
    ∧ (sessionStep cfg reg db now Command.Unknown).breaks = false
    ∧ (sessionStep cfg reg db now Command.Unknown).panics = false
    ∧ (sessionStep cfg reg db now Command.Unknown).db = db
    ∧ Command.from_resp [RespType.Array [RespType.BulkString (chars "SET"),
        RespType.BulkString k, RespType.BulkString v,
        RespType.BulkString (chars "PX"), RespType.BulkString junk]]
      = Command.Set k v none :=
  ⟨from_resp_unsupported name args hname, rfl, rfl, rfl, rfl,
   from_resp_set_bad_ttl k v junk hjunk⟩

/-- C6 witness: the amended statement at the unsupported command word
`FLUSHALL` and the non-numeric TTL `"abc"`. -/
theorem C6_unknown_handling_witness :
    Command.from_resp [RespType.Array [RespType.BulkString (chars "FLUSHALL")]]
      = Command.Unknown
    ∧ (sessionStep (Config.new none none Role.Master 6379) [] [] 0
         Command.Unknown).reply
      = (RespType.SimpleString (chars "-ERR Unknown command")).serialize :=
  ⟨(C6_unknown_handling (chars "FLUSHALL") (chars "abc") (chars "k")
      (chars "v") [] (Config.new none none Role.Master 6379) [] [] 0
      (by decide) (by decide)).1,
   (C6_unknown_handling (chars "FLUSHALL") (chars "abc") (chars "k")
      (chars "v") [] (Config.new none none Role.Master 6379) [] [] 0
      (by decide) (by decide)).2.1⟩

/-! ### C10 — CONFIG GET with an unsupported parameter panics -/

/-- C10: a `CONFIG GET` whose parameter is neither `"dir"` nor
`"dbfilename"` reaches the `unimplemented!()` arm: the dispatch panics and
produces no reply frame.  The branch is reachable from the public
interface: the wire bytes `*3\r\n$6\r\nCONFIG\r\n$3\r\nGET\r\n$4\r\nmiss\r\n`
parse to exactly this command. -/
theorem C10_configget_unimplemented (cfg : Config) (reg : List Nat)
    (db : Store) (now : Nat) (key : List Char)
    (h1 : key ≠ chars "dir") (h2 : key ≠ chars "dbfilename") :
    (sessionStep cfg reg db now (Command.ConfigGet key)).panics = true
    ∧ (sessionStep cfg reg db now (Command.ConfigGet key)).reply = none
    ∧ parseMessage (chars "*3\r\n$6\r\nCONFIG\r\n$3\r\nGET\r\n$4\r\nmiss\r\n")
        = some (Command.ConfigGet (chars "miss")) := by
  refine ⟨?_, ?_, by decide⟩ <;>
    simp [sessionStep, h1, h2, SessionOut.base]

/-- C10 witness: the panic at the concrete parameter `"miss"`. -/
theorem C10_configget_unimplemented_witness :
    (sessionStep (Config.new none none Role.Master 6379) [] [] 0
        (Command.ConfigGet (chars "miss"))).panics = true
    ∧ (sessionStep (Config.new none none Role.Master 6379) [] [] 0
        (Command.ConfigGet (chars "miss"))).reply = none :=
  ⟨(C10_configget_unimplemented (Config.new none none Role.Master 6379)
      [] [] 0 (chars "miss") (by decide) (by decide)).1,
   (C10_configget_unimplemented (Config.new none none Role.Master 6379)
      [] [] 0 (chars "miss") (by decide) (by decide)).2.1⟩

/-! ### C5 — the primary's PSYNC response -/

/-- C5: on PSYNC the session writes the `+FULLRESYNC <replication_id> 0`
line terminated by CRLF, then `$88` CRLF where 88 is the byte length of
the hard-coded empty snapshot blob, then the 88 blob bytes with nothing
after them; the arm breaks out of the client loop, writes no regular
reply, and afterwards the outbound handle is appended to the replica
registry.  The blob begins with the ASCII magic `REDIS0011`. -/
theorem C5_psync_response (cfg : Config) (reg : List Nat) (db : Store)
    (now : Nat) (handle : Nat) :
    (sessionStep cfg reg db now Command.PSync).psyncText
        = ('+' :: ((chars "FULLRESYNC " ++ cfg.repl_id ++ chars " 0")
            ++ ['\r', '\n'])) ++ ('$' :: chars "88") ++ ['\r', '\n']
    ∧ (sessionStep cfg reg db now Command.PSync).psyncBlob = emptyRDB
    ∧ emptyRDB.length = 88
    ∧ emptyRDB.take 9 = asciiBytes (chars "REDIS0011")
    ∧ (sessionStep cfg reg db now Command.PSync).breaks = true
    ∧ (sessionStep cfg reg db now Command.PSync).reply = none
    ∧ (sessionStep cfg reg db now Command.PSync).db = db
    ∧ afterLoop reg Command.PSync handle = reg ++ [handle] := by
  have e88 : decimalRepr emptyRDB.length = chars "88" := by decide
  refine ⟨?_, rfl, by decide, by decide, rfl, rfl, rfl, by simp [afterLoop]⟩
  show ('+' :: ((chars "FULLRESYNC " ++ cfg.repl_id ++ chars " 0")
        ++ ['\r', '\n'])) ++ ('$' :: decimalRepr emptyRDB.length) ++ ['\r', '\n'] = _
  rw [e88]

/-! ### C4 — SET propagation on a primary panics in the serializer -/

/-- C4: the propagation path it describes cannot complete — `serialize`
panics on the `Array[BulkString "SET", BulkString k, BulkString v]` frame
(its wildcard arm), so a SET arriving at a primary updates the store but
then panics inside `propagate_command` before writing to any replica
handle and before the `+OK` reply is produced. -/
theorem C4_set_propagation_panics :
    (RespType.Array [RespType.BulkString (chars "SET"),
        RespType.BulkString (chars "foo"),
        RespType.BulkString (chars "bar")]).serialize = none
    ∧ (sessionStep (Config.new none none Role.Master 6379) [7] [] 0
         (Command.Set (chars "foo") (chars "bar") none)).panics = true
    ∧ (sessionStep (Config.new none none Role.Master 6379) [7] [] 0
         (Command.Set (chars "foo") (chars "bar") none)).reply = none
    ∧ (sessionStep (Config.new none none Role.Master 6379) [7] [] 0
         (Command.Set (chars "foo") (chars "bar") none)).replicaWrites = []
    ∧ (sessionStep (Config.new none none Role.Master 6379) [7] [] 0
         (Command.Set (chars "foo") (chars "bar") none)).db
        = [(chars "foo",
            { value := chars "bar", expires := none, created := 0 })] := by
  exact ⟨rfl, by decide, by decide, by decide, by decide⟩

/-! ### C2 — the decoder contract -/

/-- C2: the decoder violates the contract.  A read containing the partial
frame `*1\r\n$4\r\nPI` makes `parse_bulk_string` panic (modelled `none`)
instead of signalling NeedMore, and the decoder returns no
first-unconsumed-byte index at all.  For two pipelined frames in one read
the frame parser does produce both frames, but `parse_message` collapses
the vector through `Command::from_resp`, which looks only at the first
frame — the session executes a single command for the whole read. -/
theorem C2_decoder_contract :
    parseFrames (chars "*1\r\n$4\r\nPI") = none
    ∧ parseFrames (chars "*1\r\n$4\r\nPING\r\n*2\r\n$4\r\nECHO\r\n$2\r\nhi\r\n")
        = some [RespType.Array [RespType.BulkString (chars "PING")],
                RespType.Array [RespType.BulkString (chars "ECHO"),
                                RespType.BulkString (chars "hi")]]
    ∧ parseMessage (chars "*1\r\n$4\r\nPING\r\n*2\r\n$4\r\nECHO\r\n$2\r\nhi\r\n")
        = some Command.Ping := by
  exact ⟨by decide, by decide, by decide⟩

/-! ### C9 — CONFIG GET dbfilename -/

/-- C9: with a configured snapshot filename, the session builds the frame
`Array[BulkString "dir", BulkString f]` — the label is `dir`, not the
queried name — and then panics serializing it (the serializer has no
`Array` arm), so no reply is produced at all; the claimed reply
`Array[BulkString "dbfilename", BulkString f]` is never built. -/
theorem C9_configget_dbfilename :
    (sessionStep (Config.new (some (chars "/tmp"))
        (some (chars "dump.rdb")) Role.Master 6379) [] [] 0
        (Command.ConfigGet (chars "dbfilename"))).panics = true
    ∧ (sessionStep (Config.new (some (chars "/tmp"))
        (some (chars "dump.rdb")) Role.Master 6379) [] [] 0
        (Command.ConfigGet (chars "dbfilename"))).reply = none
    ∧ (RespType.Array [RespType.BulkString (chars "dir"),
         RespType.BulkString (chars "dump.rdb")]).serialize = none := by
  exact ⟨by decide, by decide, rfl⟩

/-! ### C3 — SET/GET semantics -/

/-- The store after any `Set` dispatch is the insertion, on either role
(on a master the dispatch then panics in propagation, but the insertion
happens first, `src/main.rs` lines 145-150). -/
theorem sessionStep_set_db (cfg : Config) (reg : List Nat) (db : Store)
    (now : Nat) (k v : List Char) (ttl : Option Nat) :
    (sessionStep cfg reg db now (Command.Set k v ttl)).db
      = storeInsert db k { value := v, expires := ttl, created := now } := by
  by_cases h : cfg.role = Role.Master <;>
    simp [sessionStep, h, RespType.serialize, SessionOut.base]

/-- A sequence of further SET insertions. -/
def applySets (st : Store) (ops : List (List Char × Item)) : Store :=
  ops.foldl (fun s kv => storeInsert s kv.1 kv.2) st

theorem storeGet_applySets_ne (ops : List (List Char × Item)) (st : Store)
    (k : List Char) (h : ∀ p ∈ ops, p.1 ≠ k) :
    storeGet (applySets st ops) k = storeGet st k := by
  induction ops generalizing st with
  | nil => rfl
  | cons p ps ih =>
    show storeGet (applySets (storeInsert st p.1 p.2) ps) k = _
    rw [ih (storeInsert st p.1 p.2) (fun q hq => h q (List.mem_cons_of_mem p hq))]
    exact storeGet_insert_ne st k p.1 p.2 (h p (List.mem_cons_self p ps))

/-- C3, counterexample: GET of a live key replies with a *SimpleString*
carrying the value, not the BulkString the claim requires (the
absent/expired half of the claim does hold). -/
theorem C3_counterexample :
    (sessionStep (Config.new none none Role.Slave 6379) []
        [(chars "k", { value := chars "v", expires := none, created := 0 })] 5
        (Command.Get (chars "k"))).reply
      = (RespType.SimpleString (chars "v")).serialize
    ∧ (sessionStep (Config.new none none Role.Slave 6379) []
        [(chars "k", { value := chars "v", expires := none, created := 0 })] 5
        (Command.Get (chars "k"))).reply
      ≠ (RespType.BulkString (chars "v")).serialize
    ∧ (sessionStep (Config.new none none Role.Slave 6379) [] [] 0
        (Command.Set (chars "k") (chars "v") none)).db
      = [(chars "k", { value := chars "v", expires := none, created := 0 })] := by
  exact ⟨by decide, by decide, by decide⟩

/-- C3 (amended): after `SET k v` with no TTL, and any further SETs to
other keys, `GET k` replies with a *SimpleString* containing `v` (the
entry never expires); `GET` of an absent key, or of an entry whose TTL has
elapsed, replies NullBulk. -/
theorem C3_get_semantics (cfg : Config) (reg : List Nat) (st : Store)
    (k v : List Char) (t0 now : Nat) (ops : List (List Char × Item))
    (hops : ∀ p ∈ ops, p.1 ≠ k) :
    (sessionStep cfg reg st t0 (Command.Set k v none)).db
        = storeInsert st k { value := v, expires := none, created := t0 }
    ∧ (sessionStep cfg reg
        (applySets (storeInsert st k { value := v, expires := none, created := t0 })
          ops) now (Command.Get k)).reply
      = (RespType.SimpleString v).serialize
    ∧ (∀ db : Store, storeGet db k = none →
        (sessionStep cfg reg db now (Command.Get k)).reply
          = RespType.NullBulkString.serialize)
    ∧ (∀ (db : Store) (it : Item), storeGet db k = some it →
        it.isExpired now = true →
        (sessionStep cfg reg db now (Command.Get k)).reply
          = RespType.NullBulkString.serialize) := by
  refine ⟨sessionStep_set_db cfg reg st t0 k v none, ?_, ?_, ?_⟩
  · have hget : storeGet
        (applySets (storeInsert st k { value := v, expires := none, created := t0 })
          ops) k = some { value := v, expires := none, created := t0 } := by
      rw [storeGet_applySets_ne ops _ k hops]
      exact storeGet_insert_self st k _
    simp [sessionStep, hget, Item.isExpired]
  · intro db hdb
    simp [sessionStep, hdb]
  · intro db it hdb hexp
    simp [sessionStep, hdb, hexp]

/-- C3 witness: the amended statement at concrete inputs (one overriding
SET to a different key in between). -/
theorem C3_get_semantics_witness :
    (sessionStep (Config.new none none Role.Slave 6379) []
        (applySets (storeInsert [] (chars "k")
            { value := chars "v", expires := none, created := 0 })
          [(chars "other", { value := chars "w", expires := none, created := 1 })])
        5 (Command.Get (chars "k"))).reply
      = (RespType.SimpleString (chars "v")).serialize :=
  (C3_get_semantics (Config.new none none Role.Slave 6379) [] [] (chars "k")
      (chars "v") 0 5
      [(chars "other", { value := chars "w", expires := none, created := 1 })]
      (by decide)).2.1

/-! ### C7 — the secondary's replication-stream consumer -/

/-- The wire bytes of `Array[BulkString "SET", BulkString k, BulkString v]`
under the protocol grammar, used to feed the consumer a propagated SET. -/
def setWire (k v : List Char) : List Char :=
  joinCrlf [chars "*3", chars "$3", chars "SET",
            '$' :: decimalRepr k.length, k, '$' :: decimalRepr v.length, v]

/-- C7, counterexample: the consumer loop *does* write a reply on the
replication connection — a propagated SET is answered with `+OK\r\n`,
because the consumer is `handle_client` itself with no reply suppression. -/
theorem C7_counterexample :
    (replicaConsumerStep (Config.new none none Role.Slave 6380) [] [] 0
        (Command.Set (chars "foo") (chars "bar") none)).reply
      = some (chars "+OK\r\n")
    ∧ (replicaConsumerStep (Config.new none none Role.Slave 6380) [] [] 0
        (Command.Set (chars "foo") (chars "bar") none)).reply ≠ none := by
  exact ⟨by decide, by decide⟩

/-- C7 (amended): after the handshake the same connection is fed into the
ordinary session loop (`handle_replica` spawns `handle_client`), so
frames on it are parsed and applied to the local store exactly as client
commands — including the replies: the secondary answers a propagated SET
with `+OK` on the replication connection rather than staying silent. -/
theorem C7_consumer_applies_sets (cfg : Config) (reg : List Nat) (db : Store)
    (now : Nat) (k v : List Char) (ttl : Option Nat)
    (hrole : cfg.role = Role.Slave) :
    (∀ cmd, replicaConsumerStep cfg reg db now cmd
        = sessionStep cfg reg db now cmd)
    ∧ parseMessage (setWire (chars "foo") (chars "bar"))
        = some (Command.Set (chars "foo") (chars "bar") none)
    ∧ (replicaConsumerStep cfg reg db now (Command.Set k v ttl)).db
        = storeInsert db k { value := v, expires := ttl, created := now }
    ∧ (replicaConsumerStep cfg reg db now (Command.Set k v ttl)).reply
        = (RespType.SimpleString (chars "OK")).serialize
    ∧ (replicaConsumerStep cfg reg db now (Command.Set k v ttl)).reply
        ≠ none := by
  have hm : ¬cfg.role = Role.Master := by
    rw [hrole]; intro h; cases h
  refine ⟨fun _ => rfl, by decide,
    sessionStep_set_db cfg reg db now k v ttl, ?_, ?_⟩
  · simp [replicaConsumerStep, sessionStep, hm]
  · simp [replicaConsumerStep, sessionStep, hm, RespType.serialize]

/-- C7 witness: the consumer applying `SET foo bar` on a concrete
secondary. -/
theorem C7_consumer_applies_sets_witness :
    (replicaConsumerStep (Config.new none none Role.Slave 6380) [] [] 0
        (Command.Set (chars "foo") (chars "bar") none)).db
      = storeInsert [] (chars "foo")
          { value := chars "bar", expires := none, created := 0 } :=
  (C7_consumer_applies_sets (Config.new none none Role.Slave 6380) [] [] 0
      (chars "foo") (chars "bar") none rfl).2.2.1

/-! ### C8 — snapshot-record semantics -/

theorem readLE_le8 {e : Nat} (he : e < 2 ^ 64) : readLE (le8 e) = e := by
  simp only [readLE, le8, List.foldr]
  omega

/-- C8, counterexample: a record with a *future* millisecond expiry
(1000, at load time 500) is inserted with `expires = none` — the expiry
instant is discarded, so the entry is still live at any later time
(here 2000), where the claim requires it to have expired. -/
theorem C8_counterexample :
    parseHashTable 1 (252 :: (le8 1000 ++ [0, 1, 107, 1, 118])) 500 []
      = some [(chars "k", { value := chars "v", expires := none, created := 500 })]
    ∧ Item.isExpired
        { value := chars "v", expires := none, created := 500 } 2000 = false
    ∧ (500 : Nat) < 1000 := by
  exact ⟨by decide, rfl, by decide⟩

/-- C8 (amended): a decoded record whose millisecond expiry is already
strictly past is dropped; every other record is inserted, but with *no*
expiry at all — the wall-clock expiry is discarded and the inserted entry
never expires. -/
theorem C8_record_semantics (e : Nat) (key value : List Nat) (now : Nat)
    (db : Store) (he : e < 2 ^ 64)
    (_hklen : key.length < 256) (_hvlen : value.length < 256)
    (_hkey : ∀ b ∈ key, b < 128) (_hval : ∀ b ∈ value, b < 128) :
    parseHashTable 1
        (252 :: (le8 e ++ 0 :: key.length :: (key ++ value.length :: value)))
        now db
      = some (if e < now then db
              else storeInsert db (lossyChars key)
                { value := lossyChars value, expires := none, created := now })
    ∧ (∀ t : Nat, Item.isExpired
        { value := lossyChars value, expires := none, created := now } t
          = false) := by
  refine ⟨?_, fun _ => rfl⟩
  show parseHashTable (0 + 1) _ _ _ = _
  rw [parseHashTable, parseRecord, if_pos rfl]
  have ht8 : ((le8 e ++ 0 :: key.length :: (key ++ value.length :: value)).take 8)
      = le8 e := by
    rw [show (8 : Nat) = (le8 e).length from rfl, List.take_left]
  have hd8 : ((le8 e ++ 0 :: key.length :: (key ++ value.length :: value)).drop 8)
      = 0 :: key.length :: (key ++ value.length :: value) := by
    rw [show (8 : Nat) = (le8 e).length from rfl, List.drop_left]
  rw [ht8, hd8, if_pos (show (le8 e).length = 8 from rfl), readLE_le8 he]
  show (match recTail (some e) (key.length :: (key ++ value.length :: value))
          now db with
        | none => none
        | some (db', rest) => parseHashTable 0 rest now db') = _
  rw [recTail]
  have hdk : (key ++ value.length :: value).drop key.length
      = value.length :: value := by
    rw [show key.length = key.length from rfl]
    exact List.drop_left key (value.length :: value)
  have htk : (key ++ value.length :: value).take key.length = key :=
    List.take_left key (value.length :: value)
  rw [hdk]
  show (match (if rdbIsExpired (some e) now && (some e).isSome then
          some (db, value.drop value.length)
        else some (storeInsert db
          (lossyChars ((key ++ value.length :: value).take key.length))
          { value := lossyChars (value.take value.length), expires := none,
            created := now }, value.drop value.length)) with
        | none => none
        | some (db', rest) => parseHashTable 0 rest now db') = _
  rw [htk, List.take_length, List.drop_length]
  by_cases hlt : e < now
  · rw [if_pos (by simp [rdbIsExpired, hlt]), if_pos hlt]
    rfl
  · rw [if_neg (by simp [rdbIsExpired, hlt]), if_neg hlt]
    rfl

/-- C8 witness: the amended statement at a concrete record (expiry 1000,
loaded at 500, key `"k"`, value `"v"`). -/
theorem C8_record_semantics_witness :
    parseHashTable 1
        (252 :: (le8 1000 ++ 0 :: [107].length :: ([107] ++ [118].length :: [118])))
        500 []
      = some (if 1000 < 500 then ([] : Store)
              else storeInsert [] (lossyChars [107])
                { value := lossyChars [118], expires := none, created := 500 }) :=
  (C8_record_semantics 1000 [107] [118] 500 [] (by norm_num) (by norm_num)
    (by norm_num) (by norm_num) (by norm_num)).1

end Redis
